import Mathlib

/-!
Verification of the `python-asyncdgt` demo driver (`asyncdgt/__main__.py`)
against its design specification.

The visible repository is the demo harness: `main_async`, the helper
`clock_display_sentence`, `usage`, and `main_entrypoint`.  We embed the
demo's control flow as a trace-producing function over an oracle that says
how each awaited board/clock command resolves (ok, timeout, other
exception, cancellation).  Components of the core library that the demo
imports but that are not part of the repository (the Reconnection
Supervisor, Session, Pending Request Table and the Board value type) are
modelled from the specification where a claim needs them; those
definitions carry a `Modelled from the spec:` doc comment.
-/

namespace Asyncdgt

/-- Outcome of one command awaited in the initial information block of
`main_async` (lines 88-101): the await either succeeds, raises
`asyncio.CancelledError` (caught, prints, and returns early), or raises
some other exception (caught, prints, and skips the rest of the block). -/
inductive InfoOutcome
  | ok
  | error
  | cancelled
deriving DecidableEq

/-- Outcome of one command wrapped in `asyncio.wait_for` with both
`except asyncio.TimeoutError` and `except Exception` handlers: every
outcome is caught and execution continues. -/
inductive CaughtOutcome
  | ok
  | timeout
  | error
deriving DecidableEq

/-- One observable step of the demo harness. `attempt cmd arg t` is an
awaited call of the command surface (`t` is the caller-supplied
`asyncio.wait_for` timeout in milliseconds, `none` when the await is
bare); the remaining constructors are the harness's other effects. -/
inductive Action
  | autoConnect (globs : List String)
  | setDebugLogging
  | register (kind : String) (arity : Nat)
  | sleepMs (ms : Nat)
  | attempt (cmd : String) (arg : Option (List Char)) (callerTimeoutMs : Option Nat)
  | printLine (msg : String)
  | printUsage
  | runForever
  | close
  | cancelAll
  | gatherAwait
  | loopClose
deriving DecidableEq

/-- Python `str.split()` with no separator argument (used on line 168 as
`sentence.split()`): split on runs of whitespace, discarding empty
pieces. `acc` is the current word accumulated in reverse. -/
def pySplitAux : List Char → List Char → List (List Char)
  | [], [] => []
  | [], acc => [acc.reverse]
  | c :: rest, acc =>
    if c.isWhitespace then
      if acc = [] then pySplitAux rest []
      else acc.reverse :: pySplitAux rest []
    else pySplitAux rest (c :: acc)

/-- Python `sentence.split()`. -/
def pySplit (s : List Char) : List (List Char) := pySplitAux s []

/-- The trailing actions of a `try`/`except asyncio.TimeoutError`/`except
Exception` block around an awaited command: the success path prints
nothing here, the two handlers print a diagnostic line and fall through. -/
def caughtTail (timeoutMsg errMsg : String) : CaughtOutcome → List Action
  | .ok => []
  | .timeout => [.printLine timeoutMsg]
  | .error => [.printLine errMsg]

/-- One iteration of the loop body of `clock_display_sentence`
(lines 168-176): `await asyncio.sleep(0.2)`, then
`await asyncio.wait_for(dgt.clock_text(word), 0.5)` with both exception
handlers printing and continuing. -/
def wordStep (w : List Char) (o : CaughtOutcome) : List Action :=
  Action.sleepMs 200 :: Action.attempt "clock_text" (some w) (some 500) ::
    caughtTail "Sending clock text timed out." "Error sending clock text" o

/-- The loop of `clock_display_sentence` over the word list, threading the
per-word outcome oracle. -/
def cdsAux : List (List Char) → (Nat → CaughtOutcome) → List Action
  | [], _ => []
  | w :: rest, oracle => wordStep w (oracle 0) ++ cdsAux rest (fun i => oracle (i + 1))

/-- Trace of `clock_display_sentence(dgt, sentence)` (lines 167-176): for
each whitespace-separated word of `sentence`, in order, sleep 0.2 s and
attempt `clock_text` under a 0.5 s caller timeout; the oracle gives each
attempt's outcome. -/
def clock_display_sentence (sentence : List Char) (oracle : Nat → CaughtOutcome) :
    List Action :=
  cdsAux (pySplit sentence) oracle

/-- Resolution oracle for one run of `main_async`: how each awaited
command turns out. `clockText n` is the outcome for the n-th word of the
displayed sentence. -/
structure Oracle where
  version : InfoOutcome
  serialnr : InfoOutcome
  longSerialnr : InfoOutcome
  board : InfoOutcome
  clockVersion : CaughtOutcome
  clockText : Nat → CaughtOutcome
  beep : CaughtOutcome
  clockSet : CaughtOutcome

/-- The initial information block (lines 88-101) as a list of awaited
commands with their outcomes, processed in order: `ok` moves on,
`error` (`except Exception`) prints and leaves the block, `cancelled`
(`except asyncio.CancelledError`) prints and returns early from
`main_async`. The boolean is `true` on the early-return path. -/
def runInfo : List (String × InfoOutcome) → List Action × Bool
  | [] => ([], false)
  | (c, o) :: rest =>
    match o with
    | .ok =>
      let r := runInfo rest
      (Action.attempt c none none :: r.1, r.2)
    | .error =>
      ([Action.attempt c none none,
        Action.printLine "Error getting board information"], false)
    | .cancelled =>
      ([Action.attempt c none none,
        Action.printLine "Connection or information retrieval cancelled."], true)

/-- The four commands of the initial information block, in source order
(lines 89-92), paired with their oracle outcomes. -/
def infoSteps (o : Oracle) : List (String × InfoOutcome) :=
  [("get_version", o.version), ("get_serialnr", o.serialnr),
   ("get_long_serialnr", o.longSerialnr), ("get_board", o.board)]

/-- The five decorator registrations of `main_async` (lines 60-79), in
source order, each with its handler's parameter count:
`on_connected(port)`, `on_disconnected()`, `on_board(board)`,
`on_button_pressed(button)`, `on_clock(clock)`. -/
def handlerRegistrations : List Action :=
  [.register "connected" 1, .register "disconnected" 0, .register "board" 1,
   .register "button_pressed" 1, .register "clock" 1]

/-- The sentence displayed word by word on the clock (line 113). -/
def demoQuote : String := "Now, I am become death, the destroyer of worlds. Ready"

/-- The shutdown path of `main_async` (lines 147-162): the
never-completing future is awaited until cancellation, then the `finally`
block calls `dgt.close()`, cancels all outstanding tasks, awaits them via
`asyncio.gather`, and closes the loop. -/
def shutdownSeq : List Action :=
  [.runForever, .printLine "Event loop cancelled. Shutting down...",
   .close, .cancelAll, .gatherAwait, .loopClose]

/-- Trace and return value of `main_async(port_globs)` (lines 52-164).
The return value is `none` on the early `return` of line 96 and `some 0`
from line 164 otherwise. -/
def mainAsyncTrace (port_globs : List String) (o : Oracle) : List Action × Option Nat :=
  let pre := Action.autoConnect port_globs :: handlerRegistrations ++ [Action.sleepMs 100]
  let info := runInfo (infoSteps o)
  if info.2 then (pre ++ info.1, none)
  else
    let cv := Action.attempt "get_clock_version" none (some 1000) ::
      caughtTail "Clock version request timed out." "Error getting clock version"
        o.clockVersion
    let disp := Action.printLine "Displaying text ..." ::
      clock_display_sentence demoQuote.data o.clockText
    let beep := Action.attempt "clock_beep" (some "0.1".data) (some 1000) ::
      caughtTail "Beep not acknowledged in time." "Error making clock beep" o.beep
    let cset := Action.attempt "clock_set"
        (some "left_time=10, right_time=7, left_running=True".data) (some 1000) ::
      caughtTail "Clock does not respond." "Error setting clock countdown" o.clockSet
    (pre ++ info.1 ++ cv ++ disp ++ beep ++ cset ++ shutdownSeq, some 0)

/-- Python `sys.exit` semantics at the bottom of `main_entrypoint`:
`sys.exit(None)` exits with status 0, `sys.exit(n)` with status `n`. -/
def pyExitCode : Option Nat → Nat
  | none => 0
  | some n => n

/-- The port glob list built on line 183:
`[arg for arg in sys.argv[1:] if arg != "--debug"]`. `argv` is the full
`sys.argv`, program name included. -/
def portGlobs (argv : List String) : List String :=
  (argv.drop 1).filter (· ≠ "--debug")

/-- The debug-logging test on line 180: `"--debug" in sys.argv`. -/
def debugEnabled (argv : List String) : Bool := argv.contains "--debug"

/-- Trace and exit status of `main_entrypoint()` (lines 179-189): enable
debug logging if requested, then either print usage and exit 1 (empty
pattern list) or run `main_async` on the patterns and exit with its
return value. -/
def main_entrypoint (argv : List String) (o : Oracle) : List Action × Nat :=
  let dbg := if debugEnabled argv then [Action.setDebugLogging] else []
  if portGlobs argv = [] then (dbg ++ [Action.printUsage], 1)
  else
    let r := mainAsyncTrace (portGlobs argv) o
    (dbg ++ r.1, pyExitCode r.2)

/-- Modelled from the spec: Session lifecycle states (§4.4),
`Starting → Running → Dead`. The Session class itself is not part of the
visible repository. -/
inductive SessionState
  | starting
  | running
  | dead
deriving DecidableEq

/-- Modelled from the spec: a Session together with its Pending Request
Table (§4.4, §4.5) — the table maps correlation keys to pending requests;
here only the keys matter. The library code holding this state is not
under `src/`. -/
structure SessionModel where
  state : SessionState
  pendingKeys : List Nat
deriving DecidableEq

/-- Modelled from the spec: the timeout branch of `await_reply` (§4.5) —
"on timeout the entry is removed and a `Timeout` error is returned to the
caller, but the Session keeps running". -/
def awaitReplyTimeout (s : SessionModel) (key : Nat) : SessionModel :=
  { s with pendingKeys := s.pendingKeys.erase key }

/-- Modelled from the spec: the Reconnection Supervisor imposes no
internal timeout on the readiness wait (§4.7: "bounded by the caller's
own timeout, not an internal one"; "the Supervisor imposes none beyond
what a caller requests"). -/
def supervisorInternalTimeoutMs : Option Nat := none

/-- Timing data for one public command issued before the Supervisor is
`Connected`: when the readiness signal is set, and how long the reply
takes after the command is then sent. -/
structure CommandRun where
  readyAtMs : Nat
  replyDelayMs : Nat
deriving DecidableEq

/-- Result of a public command run under a caller timeout. -/
inductive CmdResult
  | ok
  | timedOut
deriving DecidableEq

/-- The instant the command's reply is in hand: readiness first, then the
reply. -/
def commandFinishMs (r : CommandRun) : Nat := r.readyAtMs + r.replyDelayMs

/-- Modelled from the spec: issuing a public command while not yet
`Connected` (§4.7) — wait for readiness, send, await the reply; the only
deadline cutting the wait short is the caller's own timeout (plus the
Supervisor's internal one, were there any — but
`supervisorInternalTimeoutMs` is `none`). -/
def runWithCallerTimeout (r : CommandRun) (callerTimeoutMs : Nat) : CmdResult :=
  let deadline :=
    match supervisorInternalTimeoutMs with
    | some internal => min internal callerTimeoutMs
    | none => callerTimeoutMs
  if commandFinishMs r < deadline then .ok else .timedOut

/-- Modelled from the spec: the argument list of
`clock_set(left_time, right_time, left_running, right_running)` (§4.7).
The demo passes the first three by keyword (line 129); `right_running`
defaults. -/
structure ClockSetArgs where
  left_time : Nat
  right_time : Nat
  left_running : Bool
  right_running : Bool := false
deriving DecidableEq

/-- The `clock_set` invocation of the demo (line 129):
`dgt.clock_set(left_time=10, right_time=7, left_running=True)`. -/
def demoClockSetCall : ClockSetArgs :=
  { left_time := 10, right_time := 7, left_running := true }

/-- Modelled from the spec: a square's occupancy in a Board State (§3) —
empty, or an opaque piece code rendered as a character. -/
inductive Sq
  | empty
  | piece (c : Char)
deriving DecidableEq

/-- Modelled from the spec: a Board State's occupancy part (§3), stored
rank by rank; `ranks.get 0` is rank 1, `ranks.get 7` is rank 8. The Board
value type returned by `get_board` is not part of the visible
repository. -/
structure Board where
  ranks : List (List Sq)
deriving DecidableEq

/-- FEN digit for a run of `n` empty squares, `1 ≤ n ≤ 8`. -/
def runDigit : Nat → Char
  | 1 => '1'
  | 2 => '2'
  | 3 => '3'
  | 4 => '4'
  | 5 => '5'
  | 6 => '6'
  | 7 => '7'
  | 8 => '8'
  | _ => '0'

/-- Serialize one rank in FEN rank syntax: piece codes verbatim, maximal
runs of empty squares compressed to their length's digit. `n` is the
count of the empty run read so far. -/
def rankFenAux : List Sq → Nat → List Char
  | [], 0 => []
  | [], n + 1 => [runDigit (n + 1)]
  | .empty :: rest, n => rankFenAux rest (n + 1)
  | .piece c :: rest, 0 => c :: rankFenAux rest 0
  | .piece c :: rest, n + 1 => runDigit (n + 1) :: c :: rankFenAux rest 0

/-- One rank's FEN fragment. -/
def rankFen (row : List Sq) : List Char := rankFenAux row 0

/-- Join rank fragments with the `/` separator. -/
def joinSlash : List (List Char) → List Char
  | [] => []
  | [r] => r
  | r :: rest => r ++ '/' :: joinSlash rest

/-- Modelled from the spec: `board_fen()` on a `get_board` result (§6
Board serialization) — a FEN-like string built purely from occupancy,
empty squares run-length compressed per standard FEN rank syntax, ranks
serialized from rank 8 down to rank 1, joined by `/`, with no
side-to-move or castling fields appended. -/
def board_fen (b : Board) : String :=
  ⟨joinSlash (b.ranks.reverse.map rankFen)⟩

/-- Inverse reading of one FEN rank fragment: digits expand to that many
empty squares, any other character is a piece code. -/
def expandRank : List Char → List Sq
  | [] => []
  | c :: rest =>
    if c.isDigit then List.replicate (c.toNat - 48) Sq.empty ++ expandRank rest
    else Sq.piece c :: expandRank rest

/-- Split a character list on `/`. -/
def splitSlash : List Char → List (List Char)
  | [] => [[]]
  | c :: rest =>
    if c = '/' then [] :: splitSlash rest
    else
      match splitSlash rest with
      | [] => [[c]]
      | g :: gs => (c :: g) :: gs

/-- An opaque piece code is rendered by a character that is not a digit,
not the `/` separator, and not a blank. -/
def goodSq : Sq → Bool
  | .empty => true
  | .piece c => !c.isDigit && c ≠ '/' && c ≠ ' '

/-- A well-formed occupancy snapshot: eight ranks of eight squares, piece
codes that are printable opaque codes. -/
def GoodBoard (b : Board) : Prop :=
  b.ranks.length = 8 ∧
  (∀ row ∈ b.ranks, row.length = 8) ∧
  (∀ row ∈ b.ranks, ∀ s ∈ row, goodSq s = true)

instance : DecidablePred GoodBoard := fun b => by
  unfold GoodBoard
  infer_instance

/-! ## Helper notions and lemmas about demo traces -/

/-- Actions that appear inside the command phase of the demo: awaited
command attempts, printed lines, and sleeps — never a close, a
cancellation, a registration, or a connection (re)start. -/
def cmdPhase : Action → Bool
  | .attempt _ _ _ => true
  | .printLine _ => true
  | .sleepMs _ => true
  | _ => false

/-- The attempts of `clock_text` and friends, in order. -/
def isAttempt : Action → Bool
  | .attempt _ _ _ => true
  | _ => false

/-- The awaited command attempts of a trace, in order. -/
def attemptsOf (l : List Action) : List Action := l.filter isAttempt

/-- The command names attempted in a trace, in order. -/
def attemptNames (l : List Action) : List String :=
  l.filterMap fun a =>
    match a with
    | .attempt c _ _ => some c
    | _ => none

/-- Project a trace action to its handler registration, if it is one. -/
def regProj : Action → Option (String × Nat)
  | .register k n => some (k, n)
  | _ => none

/-- The `on(kind, handler)` registrations of a trace, with handler
arities, in order. -/
def registrationsOf (l : List Action) : List (String × Nat) :=
  l.filterMap regProj

/-- `Segment block l`: `block` occurs contiguously inside `l`. -/
def Segment (block l : List Action) : Prop := ∃ s t, l = s ++ (block ++ t)

/-- Modelled from the spec: the Event Bus kinds and their payload shapes
(§4.6) — `connected(port_identifier)`, `disconnected()`,
`board(Board State)`, `button_pressed(button_identifier)`,
`clock(Clock State)` — each paired with the number of payload
components. -/
def eventKindArities : List (String × Nat) :=
  [("connected", 1), ("disconnected", 0), ("board", 1),
   ("button_pressed", 1), ("clock", 1)]

/-- An oracle under which every awaited command resolves normally. -/
def allOkOracle : Oracle :=
  { version := .ok, serialnr := .ok, longSerialnr := .ok, board := .ok,
    clockVersion := .ok, clockText := fun _ => .ok, beep := .ok, clockSet := .ok }

/-- The `allOkOracle` run, except that the clock version request times
out — the scenario of lines 104-109. -/
def clockTimeoutOracle : Oracle := { allOkOracle with clockVersion := .timeout }

/-- The `allOkOracle` run, except that the very first information
request is cancelled, taking the early `return` of line 96. -/
def cancelOracle : Oracle := { allOkOracle with version := .cancelled }

/-- The command names the demo attempts across a fully successful run. -/
def demoCommandNames : List String :=
  attemptNames (mainAsyncTrace ["/dev/ttyUSB0"] allOkOracle).1

/-- A rank with no pieces on it. -/
def emptyRank : List Sq := List.replicate 8 Sq.empty

/-- A small concrete occupancy snapshot: white king on a1, black king on
h1, a pawn rank on rank 8, everything else empty (`ranks.get 0` is
rank 1). -/
def sampleBoard : Board :=
  ⟨[[Sq.piece 'K', Sq.empty, Sq.empty, Sq.empty,
     Sq.empty, Sq.empty, Sq.empty, Sq.piece 'k'],
    emptyRank, emptyRank, emptyRank, emptyRank, emptyRank, emptyRank,
    List.replicate 8 (Sq.piece 'p')]⟩

/-- The part of the `main_async` trace before the clock version request:
connect, register the handlers, the initial sleep, and the initial
information block. -/
def preConnectTrace (globs : List String) (o : Oracle) : List Action :=
  Action.autoConnect globs :: handlerRegistrations ++ [Action.sleepMs 100] ++
    (runInfo (infoSteps o)).1

/-- The part of the `main_async` trace strictly between the clock version
request and the long-lived wait: the clock version exception handling,
the displayed sentence, the beep, and the countdown. -/
def postClockVersionTrace (o : Oracle) : List Action :=
  caughtTail "Clock version request timed out." "Error getting clock version"
      o.clockVersion ++
    (Action.printLine "Displaying text ..." ::
      clock_display_sentence demoQuote.data o.clockText) ++
    (Action.attempt "clock_beep" (some "0.1".data) (some 1000) ::
      caughtTail "Beep not acknowledged in time." "Error making clock beep" o.beep) ++
    (Action.attempt "clock_set"
        (some "left_time=10, right_time=7, left_running=True".data) (some 1000) ::
      caughtTail "Clock does not respond." "Error setting clock countdown" o.clockSet)

theorem cmdPhase_ne_close {a : Action} (h : cmdPhase a = true) : a ≠ Action.close := by
  cases a <;> simp_all [cmdPhase]

theorem cmdPhase_ne_cancelAll {a : Action} (h : cmdPhase a = true) :
    a ≠ Action.cancelAll := by
  cases a <;> simp_all [cmdPhase]

theorem cmdPhase_ne_gatherAwait {a : Action} (h : cmdPhase a = true) :
    a ≠ Action.gatherAwait := by
  cases a <;> simp_all [cmdPhase]

theorem cmdPhase_ne_autoConnect {a : Action} (h : cmdPhase a = true) (g : List String) :
    a ≠ Action.autoConnect g := by
  cases a <;> simp_all [cmdPhase]

theorem caughtTail_cmdPhase (tm em : String) (o : CaughtOutcome) :
    ∀ a ∈ caughtTail tm em o, cmdPhase a = true := by
  cases o <;> simp [caughtTail, cmdPhase]

theorem wordStep_cmdPhase (w : List Char) (o : CaughtOutcome) :
    ∀ a ∈ wordStep w o, cmdPhase a = true := by
  intro a ha
  rcases List.mem_cons.1 ha with rfl | ha
  · rfl
  rcases List.mem_cons.1 ha with rfl | ha
  · rfl
  exact caughtTail_cmdPhase _ _ _ a ha

theorem cdsAux_cmdPhase :
    ∀ (ws : List (List Char)) (oracle : Nat → CaughtOutcome) (a : Action),
      a ∈ cdsAux ws oracle → cmdPhase a = true := by
  intro ws
  induction ws with
  | nil => intro oracle a ha; simp [cdsAux] at ha
  | cons w rest ih =>
    intro oracle a ha
    rcases List.mem_append.1 ha with h | h
    · exact wordStep_cmdPhase w (oracle 0) a h
    · exact ih _ a h

theorem runInfo_cmdPhase :
    ∀ (l : List (String × InfoOutcome)) (a : Action),
      a ∈ (runInfo l).1 → cmdPhase a = true := by
  intro l
  induction l with
  | nil => intro a ha; simp [runInfo] at ha
  | cons p rest ih =>
    intro a ha
    obtain ⟨c, o⟩ := p
    cases o with
    | ok =>
      rcases List.mem_cons.1 ha with rfl | ha
      · rfl
      · exact ih a ha
    | error =>
      rcases List.mem_cons.1 ha with rfl | ha
      · rfl
      rcases List.mem_cons.1 ha with rfl | ha
      · rfl
      · simp at ha
    | cancelled =>
      rcases List.mem_cons.1 ha with rfl | ha
      · rfl
      rcases List.mem_cons.1 ha with rfl | ha
      · rfl
      · simp at ha

theorem attemptsOf_append (l₁ l₂ : List Action) :
    attemptsOf (l₁ ++ l₂) = attemptsOf l₁ ++ attemptsOf l₂ :=
  List.filter_append l₁ l₂

theorem wordStep_attempts (w : List Char) (o : CaughtOutcome) :
    attemptsOf (wordStep w o) =
      [Action.attempt "clock_text" (some w) (some 500)] := by
  cases o <;> rfl

theorem cdsAux_attempts (ws : List (List Char)) (oracle : Nat → CaughtOutcome) :
    attemptsOf (cdsAux ws oracle) =
      ws.map fun w => Action.attempt "clock_text" (some w) (some 500) := by
  induction ws generalizing oracle with
  | nil => rfl
  | cons w rest ih =>
    rw [cdsAux, attemptsOf_append, wordStep_attempts, ih, List.map_cons,
      List.singleton_append]

theorem cdsAux_segment (ws : List (List Char)) (oracle : Nat → CaughtOutcome)
    (w : List Char) (hw : w ∈ ws) :
    Segment [Action.sleepMs 200, Action.attempt "clock_text" (some w) (some 500)]
      (cdsAux ws oracle) := by
  induction ws generalizing oracle with
  | nil => cases hw
  | cons w0 rest ih =>
    rcases List.mem_cons.1 hw with rfl | hw
    · refine ⟨[],
        caughtTail "Sending clock text timed out." "Error sending clock text"
          (oracle 0) ++ cdsAux rest (fun i => oracle (i + 1)), ?_⟩
      rw [cdsAux, wordStep]
      simp
    · obtain ⟨s, t, hst⟩ := ih (fun i => oracle (i + 1)) hw
      exact ⟨wordStep w0 (oracle 0) ++ s, t, by rw [cdsAux, hst, List.append_assoc]⟩

theorem cdsAux_mem_attempt (ws : List (List Char)) (oracle : Nat → CaughtOutcome)
    (w : List Char) (hw : w ∈ ws) :
    Action.attempt "clock_text" (some w) (some 500) ∈ cdsAux ws oracle := by
  obtain ⟨s, t, hst⟩ := cdsAux_segment ws oracle w hw
  rw [hst]
  simp

theorem registrationsOf_eq_nil {l : List Action}
    (h : ∀ a ∈ l, cmdPhase a = true) : registrationsOf l = [] := by
  induction l with
  | nil => rfl
  | cons a rest ih =>
    have ha := h a (List.mem_cons_self a rest)
    have hrest := ih fun b hb => h b (List.mem_cons_of_mem a hb)
    cases a <;> simp_all [registrationsOf, regProj, cmdPhase, List.filterMap_cons]

theorem caughtTail_cmdPhase' {tm em : String} {o : CaughtOutcome} {a : Action}
    (h : a ∈ caughtTail tm em o) : cmdPhase a = true := caughtTail_cmdPhase tm em o a h

theorem mainAsyncTrace_mem (g : List String) (o : Oracle) (a : Action)
    (h : a ∈ (mainAsyncTrace g o).1) :
    a = Action.autoConnect g ∨ a ∈ handlerRegistrations ∨ a ∈ shutdownSeq ∨
      cmdPhase a = true := by
  by_cases hb : (runInfo (infoSteps o)).2 = true
  · simp only [mainAsyncTrace, hb, if_true, List.cons_append, List.mem_cons,
      List.mem_append, List.mem_singleton] at h
    rcases h with rfl | ⟨h | rfl | h⟩ | h
    · exact Or.inl rfl
    · exact Or.inr (Or.inl h)
    · exact Or.inr (Or.inr (Or.inr rfl))
    · cases h
    · exact Or.inr (Or.inr (Or.inr (runInfo_cmdPhase _ a h)))
  · simp [mainAsyncTrace, hb] at h
    rcases h with rfl | h | rfl | h | rfl | h | rfl | h | rfl | h | rfl | h | h
    · exact Or.inl rfl
    · exact Or.inr (Or.inl h)
    · exact Or.inr (Or.inr (Or.inr rfl))
    · exact Or.inr (Or.inr (Or.inr (runInfo_cmdPhase _ a h)))
    · exact Or.inr (Or.inr (Or.inr rfl))
    · exact Or.inr (Or.inr (Or.inr (caughtTail_cmdPhase' h)))
    · exact Or.inr (Or.inr (Or.inr rfl))
    · exact Or.inr (Or.inr (Or.inr (cdsAux_cmdPhase _ _ a h)))
    · exact Or.inr (Or.inr (Or.inr rfl))
    · exact Or.inr (Or.inr (Or.inr (caughtTail_cmdPhase' h)))
    · exact Or.inr (Or.inr (Or.inr rfl))
    · exact Or.inr (Or.inr (Or.inr (caughtTail_cmdPhase' h)))
    · exact Or.inr (Or.inr (Or.inl h))

theorem mainAsyncTrace_autoConnect {g gl : List String} {o : Oracle}
    (h : Action.autoConnect gl ∈ (mainAsyncTrace g o).1) : gl = g := by
  rcases mainAsyncTrace_mem g o _ h with heq | hm | hm | hc
  · injection heq
  · simp [handlerRegistrations] at hm
  · simp [shutdownSeq] at hm
  · simp [cmdPhase] at hc

theorem mainAsyncTrace_ret (g : List String) (o : Oracle) :
    (mainAsyncTrace g o).2 = if (runInfo (infoSteps o)).2 then none else some 0 := by
  by_cases hb : (runInfo (infoSteps o)).2 = true <;> simp [mainAsyncTrace, hb]

theorem mainAsyncTrace_decomp (globs : List String) (o : Oracle)
    (hb : (runInfo (infoSteps o)).2 = false) :
    (mainAsyncTrace globs o).1 =
      preConnectTrace globs o ++
        Action.attempt "get_clock_version" none (some 1000) ::
          (postClockVersionTrace o ++ shutdownSeq) := by
  simp [mainAsyncTrace, hb, preConnectTrace, postClockVersionTrace,
    clock_display_sentence]

theorem preConnectTrace_mem (globs : List String) (o : Oracle) (a : Action)
    (h : a ∈ preConnectTrace globs o) :
    a = Action.autoConnect globs ∨ a ∈ handlerRegistrations ∨ cmdPhase a = true := by
  simp only [preConnectTrace, List.cons_append, List.mem_cons, List.mem_append,
    List.mem_singleton] at h
  rcases h with rfl | (h | rfl | hnil) | h
  · exact Or.inl rfl
  · exact Or.inr (Or.inl h)
  · exact Or.inr (Or.inr rfl)
  · cases hnil
  · exact Or.inr (Or.inr (runInfo_cmdPhase _ a h))

theorem postClockVersionTrace_cmdPhase (o : Oracle) (a : Action)
    (h : a ∈ postClockVersionTrace o) : cmdPhase a = true := by
  simp only [postClockVersionTrace, clock_display_sentence, List.cons_append,
    List.mem_cons, List.mem_append] at h
  rcases h with ((h | rfl | h) | rfl | h) | rfl | h
  · exact caughtTail_cmdPhase' h
  · rfl
  · exact cdsAux_cmdPhase _ _ a h
  · rfl
  · exact caughtTail_cmdPhase' h
  · rfl
  · exact caughtTail_cmdPhase' h

theorem close_not_mem_preConnect (globs : List String) (o : Oracle) :
    Action.close ∉ preConnectTrace globs o := by
  intro h
  rcases preConnectTrace_mem globs o _ h with heq | hm | hc
  · cases heq
  · simp [handlerRegistrations] at hm
  · simp [cmdPhase] at hc

theorem close_not_mem_postClockVersion (o : Oracle) :
    Action.close ∉ postClockVersionTrace o := by
  intro h
  have := postClockVersionTrace_cmdPhase o _ h
  simp [cmdPhase] at this

theorem autoConnect_not_mem_postClockVersion (o : Oracle) (gl : List String) :
    Action.autoConnect gl ∉ postClockVersionTrace o := by
  intro h
  have := postClockVersionTrace_cmdPhase o _ h
  simp [cmdPhase] at this

theorem mem_postClockVersion_clockText (o : Oracle) (w : List Char)
    (hw : w ∈ pySplit demoQuote.data) :
    Action.attempt "clock_text" (some w) (some 500) ∈ postClockVersionTrace o := by
  simp only [postClockVersionTrace, clock_display_sentence, List.cons_append,
    List.mem_cons, List.mem_append]
  exact Or.inl (Or.inl (Or.inr (Or.inr (cdsAux_mem_attempt _ _ w hw))))

theorem mem_postClockVersion_beep (o : Oracle) :
    Action.attempt "clock_beep" (some "0.1".data) (some 1000) ∈
      postClockVersionTrace o := by
  simp [postClockVersionTrace]

theorem mem_postClockVersion_clockSet (o : Oracle) :
    Action.attempt "clock_set"
        (some "left_time=10, right_time=7, left_running=True".data) (some 1000) ∈
      postClockVersionTrace o := by
  simp [postClockVersionTrace]

theorem attemptNames_append (l₁ l₂ : List Action) :
    attemptNames (l₁ ++ l₂) = attemptNames l₁ ++ attemptNames l₂ :=
  List.filterMap_append _ _ _

/-! ## Lemmas about the FEN-like board serialization -/

theorem runDigit_ne_slash_space (k : Nat) :
    runDigit k ≠ '/' ∧ runDigit k ≠ ' ' := by
  unfold runDigit
  split <;> exact ⟨by decide, by decide⟩

theorem runDigit_spec (k : Nat) (h1 : 1 ≤ k) (h2 : k ≤ 8) :
    (runDigit k).isDigit = true ∧ (runDigit k).toNat - 48 = k := by
  interval_cases k <;> exact ⟨by decide, by decide⟩

theorem goodSq_piece {c : Char} (h : goodSq (Sq.piece c) = true) :
    c.isDigit = false ∧ c ≠ '/' ∧ c ≠ ' ' := by
  simp [goodSq, Bool.and_eq_true] at h
  tauto

theorem mem_rankFenAux (row : List Sq) (n : Nat)
    (hg : ∀ s ∈ row, goodSq s = true) :
    ∀ c ∈ rankFenAux row n, c ≠ '/' ∧ c ≠ ' ' := by
  induction row generalizing n with
  | nil =>
    intro c hc
    cases n with
    | zero => simp [rankFenAux] at hc
    | succ m =>
      simp [rankFenAux] at hc
      subst hc
      exact runDigit_ne_slash_space (m + 1)
  | cons s rest ih =>
    intro c hc
    have hgs : goodSq s = true := hg s (List.mem_cons_self s rest)
    have hgrest : ∀ x ∈ rest, goodSq x = true := fun x hx =>
      hg x (List.mem_cons_of_mem s hx)
    cases s with
    | empty =>
      simp only [rankFenAux] at hc
      exact ih (n + 1) hgrest c hc
    | piece c0 =>
      have hc0 := goodSq_piece hgs
      cases n with
      | zero =>
        simp only [rankFenAux] at hc
        rcases List.mem_cons.1 hc with rfl | hc
        · exact ⟨hc0.2.1, hc0.2.2⟩
        · exact ih 0 hgrest c hc
      | succ m =>
        simp only [rankFenAux] at hc
        rcases List.mem_cons.1 hc with rfl | hc
        · exact runDigit_ne_slash_space (m + 1)
        rcases List.mem_cons.1 hc with rfl | hc
        · exact ⟨hc0.2.1, hc0.2.2⟩
        · exact ih 0 hgrest c hc

theorem expandRank_rankFenAux (row : List Sq) (n : Nat)
    (hlen : n + row.length ≤ 8)
    (hg : ∀ s ∈ row, goodSq s = true) :
    expandRank (rankFenAux row n) = List.replicate n Sq.empty ++ row := by
  induction row generalizing n with
  | nil =>
    cases n with
    | zero => rfl
    | succ m =>
      have hm : m + 1 ≤ 8 := by simpa using hlen
      have hd := runDigit_spec (m + 1) (by omega) hm
      simp [rankFenAux, expandRank, hd.1, hd.2]
  | cons s rest ih =>
    have hgs : goodSq s = true := hg s (List.mem_cons_self s rest)
    have hgrest : ∀ x ∈ rest, goodSq x = true := fun x hx =>
      hg x (List.mem_cons_of_mem s hx)
    cases s with
    | empty =>
      have hlen' : (n + 1) + rest.length ≤ 8 := by
        simp only [List.length_cons] at hlen
        omega
      simp only [rankFenAux]
      rw [ih (n + 1) hlen' hgrest, List.replicate_succ']
      simp
    | piece c0 =>
      have hc0 := goodSq_piece hgs
      have hlen' : 0 + rest.length ≤ 8 := by
        simp only [List.length_cons] at hlen
        omega
      cases n with
      | zero =>
        simp only [rankFenAux, expandRank, hc0.1]
        rw [ih 0 hlen' hgrest]
        simp
      | succ m =>
        have hm : m + 1 ≤ 8 := by
          simp only [List.length_cons] at hlen
          omega
        have hd := runDigit_spec (m + 1) (by omega) hm
        simp only [rankFenAux, expandRank, hd.1, hd.2, hc0.1, if_true, if_false]
        rw [ih 0 hlen' hgrest]
        simp

theorem splitSlash_no_slash (l : List Char) (h : '/' ∉ l) : splitSlash l = [l] := by
  induction l with
  | nil => rfl
  | cons c rest ih =>
    have hc : c ≠ '/' := fun heq => h (heq ▸ List.mem_cons_self c rest)
    have hrest : '/' ∉ rest := fun hm => h (List.mem_cons_of_mem c hm)
    simp [splitSlash, hc, ih hrest]

theorem splitSlash_append (r t : List Char) (h : '/' ∉ r) :
    splitSlash (r ++ '/' :: t) = r :: splitSlash t := by
  induction r with
  | nil => simp [splitSlash]
  | cons c r' ih =>
    have hc : c ≠ '/' := fun heq => h (heq ▸ List.mem_cons_self c r')
    have hr' : '/' ∉ r' := fun hm => h (List.mem_cons_of_mem c hm)
    simp [splitSlash, hc, ih hr']

theorem splitSlash_joinSlash (rs : List (List Char)) (hne : rs ≠ [])
    (hns : ∀ r ∈ rs, '/' ∉ r) : splitSlash (joinSlash rs) = rs := by
  induction rs with
  | nil => cases hne rfl
  | cons r rest ih =>
    cases rest with
    | nil => simpa [joinSlash] using splitSlash_no_slash r (hns r (by simp))
    | cons r2 rest2 =>
      have h1 : '/' ∉ r := hns r (by simp)
      have hstep : joinSlash (r :: r2 :: rest2) = r ++ '/' :: joinSlash (r2 :: rest2) :=
        rfl
      rw [hstep, splitSlash_append _ _ h1,
        ih (by simp) fun x hx => hns x (List.mem_cons_of_mem r hx)]

theorem mem_joinSlash (rs : List (List Char)) (c : Char) (h : c ∈ joinSlash rs) :
    c = '/' ∨ ∃ r ∈ rs, c ∈ r := by
  induction rs with
  | nil => simp [joinSlash] at h
  | cons r rest ih =>
    cases rest with
    | nil => exact Or.inr ⟨r, by simp, h⟩
    | cons r2 rest2 =>
      have hstep : joinSlash (r :: r2 :: rest2) = r ++ '/' :: joinSlash (r2 :: rest2) :=
        rfl
      rw [hstep] at h
      rcases List.mem_append.1 h with h | h
      · exact Or.inr ⟨r, by simp, h⟩
      rcases List.mem_cons.1 h with rfl | h
      · exact Or.inl rfl
      rcases ih h with h | ⟨r', hr', hc⟩
      · exact Or.inl h
      · exact Or.inr ⟨r', List.mem_cons_of_mem r hr', hc⟩

/-! ## Claim theorems -/

/-- Claim C1: a `Timeout` on one command is local to that call. When
`get_clock_version` times out (and the run reaches it), the timeout is
merely reported, every later command of the demo — each `clock_text`
word, `clock_beep`, `clock_set` — is still attempted after the timed-out
call, no `close` occurs anywhere before the shutdown sequence, no
reconnection is started, and, in the Pending Request Table model, a
timed-out `await_reply` leaves the Session state (alive) unchanged. -/
theorem timeout_is_local (globs : List String) (o : Oracle)
    (hcv : o.clockVersion = CaughtOutcome.timeout)
    (hb : (runInfo (infoSteps o)).2 = false) :
    ((mainAsyncTrace globs o).1 =
        preConnectTrace globs o ++
          Action.attempt "get_clock_version" none (some 1000) ::
            (postClockVersionTrace o ++ shutdownSeq) ∧
      Action.printLine "Clock version request timed out." ∈ postClockVersionTrace o ∧
      (∀ w ∈ pySplit demoQuote.data,
        Action.attempt "clock_text" (some w) (some 500) ∈ postClockVersionTrace o) ∧
      Action.attempt "clock_beep" (some "0.1".data) (some 1000) ∈
        postClockVersionTrace o ∧
      Action.attempt "clock_set"
          (some "left_time=10, right_time=7, left_running=True".data) (some 1000) ∈
        postClockVersionTrace o ∧
      Action.close ∉ preConnectTrace globs o ∧
      Action.close ∉ postClockVersionTrace o ∧
      (∀ gl, Action.autoConnect gl ∉ postClockVersionTrace o)) ∧
    ∀ (s : SessionModel) (key : Nat), (awaitReplyTimeout s key).state = s.state := by
  refine ⟨⟨mainAsyncTrace_decomp globs o hb, ?_,
    fun w hw => mem_postClockVersion_clockText o w hw,
    mem_postClockVersion_beep o, mem_postClockVersion_clockSet o,
    close_not_mem_preConnect globs o, close_not_mem_postClockVersion o,
    fun gl => autoConnect_not_mem_postClockVersion o gl⟩, fun s key => rfl⟩
  simp [postClockVersionTrace, hcv, caughtTail]

theorem timeout_is_local_witness :
    clockTimeoutOracle.clockVersion = CaughtOutcome.timeout ∧
    (runInfo (infoSteps clockTimeoutOracle)).2 = false ∧
    (((mainAsyncTrace ["/dev/ttyUSB0"] clockTimeoutOracle).1 =
        preConnectTrace ["/dev/ttyUSB0"] clockTimeoutOracle ++
          Action.attempt "get_clock_version" none (some 1000) ::
            (postClockVersionTrace clockTimeoutOracle ++ shutdownSeq) ∧
      Action.printLine "Clock version request timed out." ∈
        postClockVersionTrace clockTimeoutOracle ∧
      (∀ w ∈ pySplit demoQuote.data,
        Action.attempt "clock_text" (some w) (some 500) ∈
          postClockVersionTrace clockTimeoutOracle) ∧
      Action.attempt "clock_beep" (some "0.1".data) (some 1000) ∈
        postClockVersionTrace clockTimeoutOracle ∧
      Action.attempt "clock_set"
          (some "left_time=10, right_time=7, left_running=True".data) (some 1000) ∈
        postClockVersionTrace clockTimeoutOracle ∧
      Action.close ∉ preConnectTrace ["/dev/ttyUSB0"] clockTimeoutOracle ∧
      Action.close ∉ postClockVersionTrace clockTimeoutOracle ∧
      (∀ gl, Action.autoConnect gl ∉ postClockVersionTrace clockTimeoutOracle)) ∧
    ∀ (s : SessionModel) (key : Nat), (awaitReplyTimeout s key).state = s.state) :=
  ⟨rfl, rfl, timeout_is_local ["/dev/ttyUSB0"] clockTimeoutOracle rfl rfl⟩

/-- Claim C2: with no port glob argument (every argument after the
program name missing or equal to `"--debug"`), the program prints usage
and exits with status 1 without ever starting the connection object; and
whenever the connection object is started, the glob pattern list handed
to it is non-empty. -/
theorem usage_exit_on_no_globs :
    (∀ (argv : List String) (o : Oracle),
      (∀ a ∈ argv.drop 1, a = "--debug") →
        (main_entrypoint argv o).2 = 1 ∧
        Action.printUsage ∈ (main_entrypoint argv o).1 ∧
        ∀ gl, Action.autoConnect gl ∉ (main_entrypoint argv o).1) ∧
    (∀ (argv : List String) (o : Oracle) (gl : List String),
      Action.autoConnect gl ∈ (main_entrypoint argv o).1 → gl ≠ []) := by
  constructor
  · intro argv o h
    have hg : portGlobs argv = [] := by
      simp only [portGlobs, List.filter_eq_nil_iff]
      intro a ha
      simp [h a ha]
    refine ⟨by simp [main_entrypoint, hg], by simp [main_entrypoint, hg], ?_⟩
    intro gl hmem
    by_cases hd : debugEnabled argv = true <;> simp [main_entrypoint, hg, hd] at hmem
  · intro argv o gl hmem
    by_cases hg : portGlobs argv = []
    · by_cases hd : debugEnabled argv = true <;> simp [main_entrypoint, hg, hd] at hmem
    · have hmem' : Action.autoConnect gl ∈ (mainAsyncTrace (portGlobs argv) o).1 := by
        by_cases hd : debugEnabled argv = true <;>
          simpa [main_entrypoint, hg, hd] using hmem
      rw [mainAsyncTrace_autoConnect hmem']
      exact hg

theorem usage_exit_on_no_globs_witness :
    (∀ a ∈ (["prog", "--debug"] : List String).drop 1, a = "--debug") ∧
    (main_entrypoint ["prog", "--debug"] allOkOracle).2 = 1 ∧
    Action.autoConnect ["/dev/ttyACM0"] ∈
      (main_entrypoint ["prog", "/dev/ttyACM0"] allOkOracle).1 ∧
    (["/dev/ttyACM0"] : List String) ≠ [] := by
  have hmem : Action.autoConnect ["/dev/ttyACM0"] ∈
      (main_entrypoint ["prog", "/dev/ttyACM0"] allOkOracle).1 := by decide
  exact ⟨by decide,
    (usage_exit_on_no_globs.1 ["prog", "--debug"] allOkOracle (by decide)).1,
    hmem,
    usage_exit_on_no_globs.2 ["prog", "/dev/ttyACM0"] allOkOracle _ hmem⟩

/-- Claim C3 (counterexample): the demo never invokes the serial-number
operations under the names `get_serial_number` and
`get_long_serial_number` — those names are absent from the command names
it attempts. -/
theorem surface_names_counterexample :
    ("get_serial_number" ∉ demoCommandNames) ∧
    ("get_long_serial_number" ∉ demoCommandNames) := by
  constructor <;> decide

/-- Claim C3 (as amended): the public command surface driven by the demo
consists of `get_version`, `get_serialnr`, `get_long_serialnr`,
`get_board`, `get_clock_version`, `clock_text` (once per displayed
word), `clock_beep`, and `clock_set` — the serial-number operations are
invoked under the names `get_serialnr` and `get_long_serialnr`, not
`get_serial_number`/`get_long_serial_number` — and `clock_set` accepts
the four named parameters `left_time`, `right_time`, `left_running`,
`right_running`, of which the demo passes the first three. -/
theorem command_surface (globs : List String) :
    attemptNames (mainAsyncTrace globs allOkOracle).1 =
      ["get_version", "get_serialnr", "get_long_serialnr", "get_board",
        "get_clock_version"] ++
        List.replicate 10 "clock_text" ++ ["clock_beep", "clock_set"] ∧
    (∀ (lt rt : Nat) (lr rr : Bool),
      (ClockSetArgs.mk lt rt lr rr).left_time = lt ∧
      (ClockSetArgs.mk lt rt lr rr).right_time = rt ∧
      (ClockSetArgs.mk lt rt lr rr).left_running = lr ∧
      (ClockSetArgs.mk lt rt lr rr).right_running = rr) ∧
    demoClockSetCall = ClockSetArgs.mk 10 7 true false := by
  refine ⟨?_, fun lt rt lr rr => ⟨rfl, rfl, rfl, rfl⟩, rfl⟩
  have hdec : (mainAsyncTrace globs allOkOracle).1 =
      preConnectTrace globs allOkOracle ++
        Action.attempt "get_clock_version" none (some 1000) ::
          (postClockVersionTrace allOkOracle ++ shutdownSeq) :=
    mainAsyncTrace_decomp globs allOkOracle rfl
  have hpre : attemptNames (preConnectTrace globs allOkOracle) =
      ["get_version", "get_serialnr", "get_long_serialnr", "get_board"] := by
    simp [preConnectTrace, attemptNames, List.filterMap_cons, List.filterMap_append,
      handlerRegistrations, infoSteps, allOkOracle, runInfo]
  rw [hdec, attemptNames_append, hpre]
  decide

/-- Claim C4: the event mechanism has exactly the five kinds
`connected`, `disconnected`, `board`, `button_pressed`, `clock` with
payload arities 1, 0, 1, 1, 1, and the harness registers exactly one
handler per kind, in that order, each handler's parameter count matching
the kind's payload arity. -/
theorem event_registrations (globs : List String) (o : Oracle) :
    registrationsOf (mainAsyncTrace globs o).1 = eventKindArities ∧
    eventKindArities.length = 5 ∧ (eventKindArities.map Prod.fst).Nodup := by
  refine ⟨?_, rfl, by decide⟩
  have hinfo : List.filterMap regProj (runInfo (infoSteps o)).1 = [] :=
    registrationsOf_eq_nil (runInfo_cmdPhase _)
  by_cases hb : (runInfo (infoSteps o)).2 = true
  · simp [mainAsyncTrace, hb, registrationsOf, List.filterMap_cons, regProj,
      handlerRegistrations, hinfo, eventKindArities]
  · have h1 : List.filterMap regProj
        (caughtTail "Clock version request timed out." "Error getting clock version"
          o.clockVersion) = [] :=
      registrationsOf_eq_nil (caughtTail_cmdPhase _ _ _)
    have h2 : List.filterMap regProj (cdsAux (pySplit demoQuote.data) o.clockText)
        = [] :=
      registrationsOf_eq_nil (cdsAux_cmdPhase _ _)
    have h3 : List.filterMap regProj
        (caughtTail "Beep not acknowledged in time." "Error making clock beep" o.beep)
          = [] :=
      registrationsOf_eq_nil (caughtTail_cmdPhase _ _ _)
    have h4 : List.filterMap regProj
        (caughtTail "Clock does not respond." "Error setting clock countdown"
          o.clockSet) = [] :=
      registrationsOf_eq_nil (caughtTail_cmdPhase _ _ _)
    simp [mainAsyncTrace, hb, registrationsOf, List.filterMap_cons, regProj,
      handlerRegistrations, shutdownSeq, clock_display_sentence,
      hinfo, h1, h2, h3, h4, eventKindArities]

/-- Claim C5: on the shutdown path, the harness calls the Supervisor's
`close()` exactly once — it is never skipped — and only afterwards
cancels the outstanding cooperative tasks and awaits their completion
(then closes the loop). -/
theorem shutdown_close_first (globs : List String) (o : Oracle)
    (hb : (runInfo (infoSteps o)).2 = false) :
    ∃ t₁, (mainAsyncTrace globs o).1 =
        t₁ ++ Action.close ::
          [Action.cancelAll, Action.gatherAwait, Action.loopClose] ∧
      Action.close ∉ t₁ ∧ Action.cancelAll ∉ t₁ ∧ Action.gatherAwait ∉ t₁ := by
  refine ⟨preConnectTrace globs o ++
      Action.attempt "get_clock_version" none (some 1000) ::
        (postClockVersionTrace o ++
          [Action.runForever,
            Action.printLine "Event loop cancelled. Shutting down..."]),
    ?_, ?_, ?_, ?_⟩
  · rw [mainAsyncTrace_decomp globs o hb]
    simp [shutdownSeq]
  · intro h
    simp only [List.mem_append, List.mem_cons, List.not_mem_nil, or_false] at h
    rcases h with h | h | h | h | h
    · exact close_not_mem_preConnect globs o h
    · cases h
    · exact close_not_mem_postClockVersion o h
    · cases h
    · cases h
  · intro h
    simp only [List.mem_append, List.mem_cons, List.not_mem_nil, or_false] at h
    rcases h with h | h | h | h | h
    · rcases preConnectTrace_mem globs o _ h with heq | hm | hc
      · cases heq
      · simp [handlerRegistrations] at hm
      · simp [cmdPhase] at hc
    · cases h
    · have := postClockVersionTrace_cmdPhase o _ h
      simp [cmdPhase] at this
    · cases h
    · cases h
  · intro h
    simp only [List.mem_append, List.mem_cons, List.not_mem_nil, or_false] at h
    rcases h with h | h | h | h | h
    · rcases preConnectTrace_mem globs o _ h with heq | hm | hc
      · cases heq
      · simp [handlerRegistrations] at hm
      · simp [cmdPhase] at hc
    · cases h
    · have := postClockVersionTrace_cmdPhase o _ h
      simp [cmdPhase] at this
    · cases h
    · cases h

theorem shutdown_close_first_witness :
    (runInfo (infoSteps allOkOracle)).2 = false ∧
    ∃ t₁, (mainAsyncTrace ["/dev/ttyUSB0"] allOkOracle).1 =
        t₁ ++ Action.close ::
          [Action.cancelAll, Action.gatherAwait, Action.loopClose] ∧
      Action.close ∉ t₁ ∧ Action.cancelAll ∉ t₁ ∧ Action.gatherAwait ∉ t₁ :=
  ⟨rfl, shutdown_close_first ["/dev/ttyUSB0"] allOkOracle rfl⟩

/-- Claim C6: a public command issued while the Supervisor is not yet
`Connected` is bounded only by the caller's own timeout — the Supervisor
model has no internal timeout — so a command whose readiness signal and
reply both arrive before the caller's timeout `T` succeeds. -/
theorem caller_timeout_only :
    supervisorInternalTimeoutMs = none ∧
    ∀ (r : CommandRun) (T : Nat),
      commandFinishMs r < T → runWithCallerTimeout r T = CmdResult.ok := by
  refine ⟨rfl, ?_⟩
  intro r T h
  simp [runWithCallerTimeout, supervisorInternalTimeoutMs, h]

theorem caller_timeout_only_witness :
    commandFinishMs ⟨300, 100⟩ < 1000 ∧
    runWithCallerTimeout ⟨300, 100⟩ 1000 = CmdResult.ok :=
  ⟨by decide, caller_timeout_only.2 ⟨300, 100⟩ 1000 (by decide)⟩

/-- Claim C7: `board_fen()` on a well-formed occupancy snapshot is built
purely from occupancy in standard FEN rank syntax: splitting it on `/`
and expanding each fragment (digits as runs of empty squares) recovers
exactly the ranks from rank 8 down to rank 1, there are eight rank
fragments, and the string contains no blank — hence no side-to-move or
castling fields. -/
theorem board_fen_spec (b : Board) (hb : GoodBoard b) :
    (splitSlash (board_fen b).data).map expandRank = b.ranks.reverse ∧
    (splitSlash (board_fen b).data).length = 8 ∧
    ' ' ∉ (board_fen b).data := by
  obtain ⟨hlen, hrows, hgood⟩ := hb
  have hdata : (board_fen b).data = joinSlash (b.ranks.reverse.map rankFen) := rfl
  have hnoslash : ∀ r ∈ b.ranks.reverse.map rankFen, '/' ∉ r := by
    intro r hr
    rcases List.mem_map.1 hr with ⟨row, hrow, rfl⟩
    have hrow' : row ∈ b.ranks := List.mem_reverse.1 hrow
    intro hmem
    exact (mem_rankFenAux row 0 (hgood row hrow') '/' hmem).1 rfl
  have hne : b.ranks.reverse.map rankFen ≠ [] := by
    intro h
    have := congrArg List.length h
    simp [hlen] at this
  have hsplit : splitSlash (board_fen b).data = b.ranks.reverse.map rankFen := by
    rw [hdata]
    exact splitSlash_joinSlash _ hne hnoslash
  refine ⟨?_, ?_, ?_⟩
  · rw [hsplit, List.map_map]
    have hpt : ∀ row ∈ b.ranks.reverse, (expandRank ∘ rankFen) row = row := by
      intro row hrow
      have hrow' : row ∈ b.ranks := List.mem_reverse.1 hrow
      have := expandRank_rankFenAux row 0 (by simp [hrows row hrow'])
        (hgood row hrow')
      simpa [rankFen] using this
    rw [List.map_congr_left hpt]
    exact List.map_id _
  · rw [hsplit]
    simp [hlen]
  · rw [hdata]
    intro hmem
    rcases mem_joinSlash _ _ hmem with h | ⟨r, hr, hc⟩
    · exact absurd h (by decide)
    · rcases List.mem_map.1 hr with ⟨row, hrow, rfl⟩
      exact (mem_rankFenAux row 0 (hgood row (List.mem_reverse.1 hrow)) ' ' hc).2 rfl

theorem board_fen_spec_witness :
    GoodBoard sampleBoard ∧
    ((splitSlash (board_fen sampleBoard).data).map expandRank =
        sampleBoard.ranks.reverse ∧
      (splitSlash (board_fen sampleBoard).data).length = 8 ∧
      ' ' ∉ (board_fen sampleBoard).data) :=
  ⟨by decide, board_fen_spec sampleBoard (by decide)⟩

/-- Claim C8: `clock_display_sentence` attempts `clock_text` exactly
once per whitespace-separated word of its input, in the words' order,
each attempt under a 0.5-second caller timeout and contiguously preceded
by the 0.2-second sleep, and this holds for every outcome oracle — a
timeout or exception on one word never suppresses later attempts. -/
theorem clock_display_per_word (sentence : List Char)
    (oracle : Nat → CaughtOutcome) :
    attemptsOf (clock_display_sentence sentence oracle) =
      (pySplit sentence).map
        (fun w => Action.attempt "clock_text" (some w) (some 500)) ∧
    ∀ w ∈ pySplit sentence,
      Segment [Action.sleepMs 200, Action.attempt "clock_text" (some w) (some 500)]
        (clock_display_sentence sentence oracle) :=
  ⟨cdsAux_attempts _ _, fun w hw => cdsAux_segment _ _ w hw⟩

theorem clock_display_per_word_witness :
    "Ready".data ∈ pySplit demoQuote.data ∧
    Segment [Action.sleepMs 200,
        Action.attempt "clock_text" (some "Ready".data) (some 500)]
      (clock_display_sentence demoQuote.data fun _ => CaughtOutcome.timeout) :=
  ⟨by decide,
    (clock_display_per_word demoQuote.data fun _ => CaughtOutcome.timeout).2
      "Ready".data (by decide)⟩

/-- Claim C9: every occurrence of `"--debug"` among the arguments is
excluded from the port glob patterns, its presence (anywhere in
`sys.argv`) enables debug logging, and all other arguments pass through
unchanged and in order (the glob list is a sublist of the arguments
preserving every non-`--debug` argument's multiplicity). -/
theorem debug_flag_filtering (argv : List String) :
    "--debug" ∉ portGlobs argv ∧
    List.Sublist (portGlobs argv) (argv.drop 1) ∧
    (∀ a : String, a ≠ "--debug" →
      (portGlobs argv).count a = (argv.drop 1).count a) ∧
    (debugEnabled argv = true ↔ "--debug" ∈ argv) := by
  refine ⟨?_, List.filter_sublist _, ?_, ?_⟩
  · simp [portGlobs]
  · intro a ha
    exact List.count_filter (by simp [ha])
  · simp [debugEnabled]

theorem debug_flag_filtering_witness :
    ("/dev/ttyUSB*" : String) ≠ "--debug" ∧
    (portGlobs ["prog", "--debug", "/dev/ttyUSB*"]).count "/dev/ttyUSB*" =
      ((["prog", "--debug", "/dev/ttyUSB*"] : List String).drop 1).count
        "/dev/ttyUSB*" :=
  ⟨by decide,
    (debug_flag_filtering ["prog", "--debug", "/dev/ttyUSB*"]).2.2.1
      "/dev/ttyUSB*" (by decide)⟩

/-- Claim C10: the exit status is 1 exactly when no port glob argument
is supplied; otherwise the exit status is `main_async`'s return value —
`None` (exit 0) on the early-return path taken when initial information
retrieval is cancelled, and 0 after graceful shutdown. -/
theorem exit_status_spec (argv : List String) (o : Oracle) :
    ((main_entrypoint argv o).2 = 1 ↔ portGlobs argv = []) ∧
    (portGlobs argv ≠ [] →
      ((runInfo (infoSteps o)).2 = true →
        (mainAsyncTrace (portGlobs argv) o).2 = none ∧
          (main_entrypoint argv o).2 = 0) ∧
      ((runInfo (infoSteps o)).2 = false →
        (mainAsyncTrace (portGlobs argv) o).2 = some 0 ∧
          (main_entrypoint argv o).2 = 0)) := by
  by_cases hg : portGlobs argv = []
  · refine ⟨by simp [main_entrypoint, hg], ?_⟩
    intro hne
    exact absurd hg hne
  · have hret := mainAsyncTrace_ret (portGlobs argv) o
    constructor
    · constructor
      · intro h1
        exfalso
        by_cases hb : (runInfo (infoSteps o)).2 = true <;>
          simp [main_entrypoint, hg, hret, hb, pyExitCode] at h1
      · intro h
        exact absurd h hg
    · intro _
      constructor
      · intro hb
        simp [main_entrypoint, hg, hret, hb, pyExitCode]
      · intro hb
        simp [main_entrypoint, hg, hret, hb, pyExitCode]

theorem exit_status_spec_witness :
    portGlobs ["prog", "/dev/ttyUSB0"] ≠ [] ∧
    (runInfo (infoSteps cancelOracle)).2 = true ∧
    ((mainAsyncTrace (portGlobs ["prog", "/dev/ttyUSB0"]) cancelOracle).2 = none ∧
      (main_entrypoint ["prog", "/dev/ttyUSB0"] cancelOracle).2 = 0) ∧
    ((main_entrypoint ["prog"] cancelOracle).2 = 1 ↔ portGlobs ["prog"] = []) :=
  ⟨by decide, rfl,
    ((exit_status_spec ["prog", "/dev/ttyUSB0"] cancelOracle).2 (by decide)).1 rfl,
    (exit_status_spec ["prog"] cancelOracle).1⟩

end Asyncdgt
